import Mathlib

/-
Verification of the history-file comparison subsystem of CIME
(`src/scripts/lib/CIME/hist_utils.py`).

The Python source is shallowly embedded below.  Filenames and comment blobs
are `String`s; Python `set` operations are expressed on deduplicated lists
(the source sorts every set-derived list before returning it, so iteration
order of Python sets is irrelevant); the I/O collaborators of the module
(the `case` configuration object, the `archive` file-listing component, the
external `cprnc` executable and the filesystem) are passed in as explicit
environment records / oracle functions, mirroring §1 and §6 of the design
document.  `expect(cond, msg)` from `CIME.utils`, which aborts with `msg`
when `cond` is false, is embedded by giving the affected functions the
return type `Except String _`.
-/

deriving instance DecidableEq for Except

set_option maxRecDepth 65536

namespace HistUtils

/-! ## Python string primitives -/

/-- Python `needle in haystack` (substring containment). -/
def containsSub (s pat : String) : Bool :=
  (List.range (s.data.length + 1)).any
    (fun i => decide ((s.data.drop i).take pat.data.length = pat.data))

/-- Python `os.path.basename` for POSIX paths: everything after the last `/`. -/
def basename (s : String) : String :=
  String.mk ((s.data.reverse.takeWhile (fun c => c != '/')).reverse)

/-- Python `haystack.rfind(needle)`: the highest index at which `needle`
occurs as a substring, `none` when it does not occur (Python returns -1). -/
def rfindSub (s pat : List Char) : Option Nat :=
  ((List.range (s.length + 1)).filter
    (fun i => decide ((s.drop i).take pat.length = pat))).getLast?

/-- Python `s.startswith(pre)` on code points. -/
def strStartsWith (s pre : String) : Bool :=
  decide (s.data.take pre.data.length = pre.data)

/-- Python `s.endswith(suf)` on code points. -/
def strEndsWith (s suf : String) : Bool :=
  decide (suf.data.length ≤ s.data.length) &&
    decide (s.data.drop (s.data.length - suf.data.length) = suf.data)

/-- Python `os.path.join(a, b)` for POSIX paths. -/
def pathJoin (a b : String) : String :=
  if strStartsWith b "/" then b
  else if a = "" then b
  else if strEndsWith a "/" then a ++ b
  else a ++ "/" ++ b

/-- The ASCII whitespace stripped by Python `str.strip()` (the exotic
Unicode whitespace code points are not modelled; this module only ever
produces ASCII text). -/
def isPySpace (c : Char) : Bool :=
  c == ' ' || c == '\t' || c == '\n' || c == '\r' || c == '\x0b' || c == '\x0c'

/-- Python `str.strip()`. -/
def pyStrip (s : String) : String :=
  String.mk (((s.data.dropWhile isPySpace).reverse.dropWhile isPySpace).reverse)

/-- Helper for `pySplitlines`; `acc` holds the current line, reversed. -/
def splitlinesAux (acc : List Char) : List Char → List (List Char)
  | [] => if acc.isEmpty then [] else [acc.reverse]
  | c :: rest =>
      if c = '\n' then acc.reverse :: splitlinesAux [] rest
      else splitlinesAux (c :: acc) rest

/-- Python `str.splitlines()` for the `\n` separator (the only line boundary
this module ever writes; Python's further boundaries such as `\r` are not
modelled).  A trailing newline does not produce a trailing empty line. -/
def pySplitlines (s : String) : List String :=
  (splitlinesAux [] s.data).map String.mk

/-- The final line of a blob: everything after the last `\n`. -/
def lastLine (s : String) : String :=
  String.mk ((s.data.reverse.takeWhile (fun c => c != '\n')).reverse)

/-! ### Sorting (Python `sorted`)

Python `sorted` on strings compares code points; on tuples it compares
componentwise.  Every list this module sorts has pairwise-distinct
elements (each entry is determined by a distinct normalized key), so any
correct sort produces the same, strictly increasing list and stability is
irrelevant. -/

/-- Code-point lexicographic `≤` on character lists. -/
def lexLe : List Char → List Char → Bool
  | [], _ => true
  | _ :: _, [] => false
  | a :: as, b :: bs =>
      if a.val < b.val then true
      else if b.val < a.val then false
      else lexLe as bs

/-- Python string `≤`. -/
def strLe (a b : String) : Bool := lexLe a.data b.data

/-- Python tuple-of-two-strings `≤`. -/
def pairLe (p q : String × String) : Bool :=
  if p.1 = q.1 then strLe p.2 q.2 else strLe p.1 q.1

/-- Insert into a `le`-sorted list. -/
def insertLe (le : α → α → Bool) (x : α) : List α → List α
  | [] => [x]
  | y :: ys => if le x y then x :: y :: ys else y :: insertLe le x ys

/-- Insertion sort by a boolean `≤`. -/
def sortBy (le : α → α → Bool) : List α → List α
  | [] => []
  | x :: xs => insertLe le x (sortBy le xs)

/-! ## Module-level comment constants (hist_utils.py lines 17-35) -/

/-- Comment produced by `cprnc` classification for field-list-only diffs. -/
def CPRNC_FIELDLISTS_DIFFER : String := "files differ only in their field lists"

def NO_COMPARE : String := "had no compare counterpart"

def NO_ORIGINAL : String := "had no original counterpart"

def FIELDLISTS_DIFFER : String := "had a different field list from"

def DIFF_COMMENT : String := "did NOT match"

/-- The set difference of COMPARISON_COMMENT_OPTIONS minus NO_COMPARE and
FIELDLISTS_DIFFER: the comments that indicate a true baseline comparison
failure. -/
def COMPARISON_FAILURE_COMMENT_OPTIONS : List String := [NO_ORIGINAL, DIFF_COMMENT]

/-- Modelled from the spec: `TEST_NO_BASELINES_COMMENT` is imported from
`CIME.test_status`, a module outside the embedded source file.  Its value is
pinned to `"BFAIL"` both by the design document (§4.5 quotes the keyword
`'BFAIL'`) and by the doctest of `get_ts_synopsis` in the source itself,
which expects the literal output `'ERROR BFAIL some baseline files were
missing'`. -/
def TEST_NO_BASELINES_COMMENT : String := "BFAIL"

/-! ## The ensemble-instance regex

`_hists_match` runs `re.search("(.+)_[0-9]{4}(.+.nc)", name)` on every
normalized name and, on a match, records `group(1) ++ group(2)`.  We model
Python's leftmost-then-greedy backtracking search exactly: the match starts
at the leftmost feasible offset; there `(.+)` (group 1, any characters
except newline) is maximal, i.e. the split `_` is the rightmost feasible
one; then `(.+.nc)` (group 2) is maximal, i.e. the literal `nc` is matched
at the rightmost position that leaves at least two preceding characters
(note the unescaped `.` before `nc` in the source pattern). -/

/-- The dot of the pattern: any character except a newline. -/
def notNl (c : Char) : Bool := c != '\n'

/-- The rightmost position `q` in `r` such that `r[0:q]` matches `.+.`
(so `2 ≤ q`, no newline) and `r[q:q+2] = "nc"`; `group(2) = r[0:q+2]`. -/
def ncEnd (r : List Char) : Option Nat :=
  ((List.range r.length).filter
    (fun q => decide (2 ≤ q) && (r.take q).all notNl &&
      decide ((r.drop q).take 2 = ['n', 'c']))).getLast?

/-- The rightmost position `i` in `t` at which `t[0:i]` matches `(.+)`,
`t[i] = '_'`, `t[i+1:i+5]` are four digits, and the rest can complete
`(.+.nc)`. -/
def underscoreSplit (t : List Char) : Option Nat :=
  ((List.range t.length).filter
    (fun i => decide (1 ≤ i) && (t.take i).all notNl &&
      decide ((t.drop i).take 1 = ['_']) &&
      decide (((t.drop (i + 1)).take 4).length = 4) &&
      ((t.drop (i + 1)).take 4).all Char.isDigit &&
      (ncEnd (t.drop (i + 5))).isSome)).getLast?

/-- The regex match anchored at the start of `t`, returning
`group(1) ++ group(2)` (all `_hists_match` uses). -/
def reMatchAt (t : List Char) : Option (List Char) :=
  match underscoreSplit t with
  | none => none
  | some i =>
      match ncEnd (t.drop (i + 5)) with
      | none => none
      | some q => some (t.take i ++ (t.drop (i + 5)).take (q + 2))

/-- Python `re.search` of the instance pattern over `s`: the match at the leftmost
feasible start offset, as `group(1) ++ group(2)`. -/
def multiPattern (s : String) : Option String :=
  match ((List.range s.data.length).filter
      (fun st => (reMatchAt (s.data.drop st)).isSome)).head? with
  | none => none
  | some st => (reMatchAt (s.data.drop st)).map String.mk

/-- The `multi_normalized` list of a normalized-name list: `group(1) ++
group(2)` of every name the instance pattern matches, in order. -/
def multiOf (normalized : List String) : List String :=
  normalized.filterMap multiPattern

/-! ## `_hists_match` (hist_utils.py lines 127-209) -/

/-- Python slice `name[:len(name) - len(suffix) - 1]`, used to strip a
trailing suffix together with the separating `.`.  When `name` and
`suffix` have equal length the bound is the *negative* index -1, which in
Python keeps all but the last character. -/
def sliceOffSuffix (name suffix : String) : String :=
  if name.data.length ≤ suffix.data.length then
    String.mk (name.data.take (name.data.length - 1))
  else
    String.mk (name.data.take (name.data.length - suffix.data.length - 1))

/-- The per-file normalization of `_hists_match`: basename, slice from the
rightmost occurrence of the model tag, and strip a non-empty suffix.
The two `expect` calls become errors. -/
def normalizeHist (model hist suffix : String) : Except String String :=
  let histBasename := basename hist
  match rfindSub histBasename.data model.data with
  | none => .error ("ERROR: cant find model name " ++ model ++ " in " ++ histBasename)
  | some offset =>
      let normalizedName := basename (String.mk (histBasename.data.drop offset))
      if suffix = "" then .ok normalizedName
      else if strEndsWith normalizedName suffix then .ok (sliceOffSuffix normalizedName suffix)
      else .error ("How did " ++ "'" ++ hist ++ "' not have suffix " ++ "'" ++ suffix ++ "'")

/-- Error-propagating map, mirroring the normalization loop of the source
(the first failing file aborts the whole call). -/
def mapME (f : α → Except String β) : List α → Except String (List β)
  | [] => .ok []
  | x :: xs =>
      match f x with
      | .error e => .error e
      | .ok y =>
          match mapME f xs with
          | .error e => .error e
          | .ok ys => .ok (y :: ys)

def normalizeAll (model : String) (hists : List String) (suffix : String) :
    Except String (List String) :=
  mapME (fun h => normalizeHist model h suffix) hists

/-- Python `set(n1) - set(n2)` as a duplicate-free list of keys. -/
def keysOnlyIn (n1 n2 : List String) : List String :=
  n1.dedup.filter (fun k => !n2.contains k)

/-- Python `set(n1) & set(n2)` as a duplicate-free list of keys. -/
def bothKeys (n1 n2 : List String) : List String :=
  n1.dedup.filter (fun k => n2.contains k)

/-- Python `hists[normalized.index(k)]`: the original filename of the first file
whose normalized key is `k` (the default is never reached for keys drawn
from `normalized`, which has the same length as `hists`). -/
def firstWith (hists normalized : List String) (k : String) : String :=
  hists.getD (normalized.findIdx (fun x => x == k)) ""

/-- The result triple `(one_not_two, two_not_one, match_ups)`. -/
abbrev MatchTriple := List String × List String × List (String × String)

/-- The base (pre-reconciliation) result: sorted set differences and the
sorted intersection pairs, mapped back to original filenames. -/
def baseTriple (hists1 hists2 n1 n2 : List String) : MatchTriple :=
  (sortBy strLe ((keysOnlyIn n1 n2).map (firstWith hists1 n1)),
   sortBy strLe ((keysOnlyIn n2 n1).map (firstWith hists2 n2)),
   sortBy pairLe ((bothKeys n1 n2).map
     (fun k => (firstWith hists1 n1 k, firstWith hists2 n2 k))))

/-- Python `set(a) == set(b)` on lists. -/
def setEqB (a b : List String) : Bool :=
  a.all (fun x => b.contains x) && b.all (fun x => a.contains x)

/-- First reconciliation loop: `hists1` holds multi-instance files,
`hists2` does not.  `p` ranges over `enumerate(multi_normalized1)`, `q`
over `zip(hists2, normalized2)`; on a key match the pair
`(hists1[idx], hist2)` is appended and both files are removed from the
leftover lists (`List.erase` is a no-op when absent, matching the guarded
`list.remove`). -/
def recon1 (hists1 hists2 n2 multi1 : List String) (st : MatchTriple) : MatchTriple :=
  multi1.enum.foldl (fun st p =>
    (hists2.zip n2).foldl (fun st q =>
      if p.2 == q.2 then
        ((st.1.erase (hists1.getD p.1 "")), st.2.1.erase q.1,
          st.2.2 ++ [(hists1.getD p.1 "", q.1)])
      else st) st) st

/-- Second reconciliation loop, the mirror image of `recon1`. -/
def recon2 (hists1 hists2 n1 multi2 : List String) (st : MatchTriple) : MatchTriple :=
  multi2.enum.foldl (fun st p =>
    (hists1.zip n1).foldl (fun st q =>
      if p.2 == q.2 then
        (st.1.erase q.1, st.2.1.erase (hists2.getD p.1 ""),
          st.2.2 ++ [(q.1, hists2.getD p.1 "")])
      else st) st) st

/-- The result triple after the multi-instance special case (source lines
179-203): reconciliation runs only when the two `multi_normalized` lists
differ, and each direction only when the instance-stripped key set of one
side equals the full key set of the other. -/
def reconTriple (hists1 hists2 n1 n2 : List String) : MatchTriple :=
  if multiOf n1 = multiOf n2 then baseTriple hists1 hists2 n1 n2
  else
    let stA :=
      if setEqB (multiOf n1) n2 then
        recon1 hists1 hists2 n2 (multiOf n1) (baseTriple hists1 hists2 n1 n2)
      else baseTriple hists1 hists2 n1 n2
    if setEqB (multiOf n2) n1 then recon2 hists1 hists2 n1 (multiOf n2) stA
    else stA

/-- The tail of `_hists_match` after normalization: build the triple and,
when no file matched the instance pattern, check the two accounting
invariants (`expect(..., "Programming error1"/"Programming error2")`). -/
def histsMatchChecked (hists1 hists2 n1 n2 : List String) :
    Except String MatchTriple :=
  if !(multiOf n1).isEmpty || !(multiOf n2).isEmpty then
    .ok (reconTriple hists1 hists2 n1 n2)
  else if (reconTriple hists1 hists2 n1 n2).2.2.length + (keysOnlyIn n1 n2).length
      = hists1.length then
    if (reconTriple hists1 hists2 n1 n2).2.2.length + (keysOnlyIn n2 n1).length
        = hists2.length then
      .ok (reconTriple hists1 hists2 n1 n2)
    else .error "Programming error2"
  else .error "Programming error1"

/-- Embedding of `_hists_match(model, hists1, hists2, suffix1, suffix2)`:
returns `(one_not_two, two_not_one, match_ups)` or aborts. -/
def histsMatch (model : String) (hists1 hists2 : List String)
    (suffix1 suffix2 : String) : Except String MatchTriple :=
  match normalizeAll model hists1 suffix1 with
  | .error e => .error e
  | .ok n1 =>
      match normalizeAll model hists2 suffix2 with
      | .error e => .error e
      | .ok n2 => histsMatchChecked hists1 hists2 n1 n2

/-! ## `cprnc` output classification (hist_utils.py lines 352-377)

The subprocess invocation, the multi-instance output-file naming and the
log-file plumbing of `cprnc` are I/O; what the claims concern is the pure
classification of the comparator's exit status and combined output into
`(files_match, comment)`, embedded here.  An unrecognized zero-status
output hits `expect(False, ...)`. -/

def cprncClassify (cprStat : Int) (out : String)
    (multiinstDriverCompare ignoreFieldlistDiffs : Bool) :
    Except String (Bool × String) :=
  if cprStat = 0 then
    if multiinstDriverCompare then
      .ok (containsSub out " 0 had non-zero differences", "")
    else if containsSub out "files seem to be IDENTICAL" then .ok (true, "")
    else if containsSub out "the two files seem to be DIFFERENT" then .ok (false, "")
    else if containsSub out "the two files DIFFER only in their field lists" then
      if ignoreFieldlistDiffs then .ok (true, "")
      else .ok (false, CPRNC_FIELDLISTS_DIFFER)
    else .error "Did not find an expected summary string in cprnc output"
  else .ok (false, "")

/-! ## `_compare_hists` (hist_utils.py lines 211-283)

The orchestrator's collaborators are abstracted: the `case`/`archive`
objects become a `CompareEnv` record whose `histsOf1`/`histsOf2` fields
give `archive.get_latest_hist_files` for each model tag at the two
locations of the invocation, and the full `cprnc` call (subprocess, log
files and all) becomes a `CprncOracle` returning
`(files_match, output_filename, comment)` or aborting.  The log-copying
on a mismatch (source lines 268-273) is a side effect on files with no
influence on the returned `(success, comments)` and is not modelled;
the `cat <log>` comment line it accompanies is.  The `outfile_suffix`
parameter only alters the name of the comparator's log file and is
likewise subsumed in the oracle. -/

/-- Oracle form of `cprnc(model, file1, file2, ..., multiinst_driver_compare,
ignore_fieldlist_diffs)` as an oracle over the environment. -/
abbrev CprncOracle :=
  String → String → String → Bool → Bool → Except String (Bool × String × String)

/-- The mutable loop state of `_compare_hists`. -/
structure OrchState where
  allSuccess : Bool
  numCompared : Nat
  comments : String
  multiinstDC : Bool
  deriving Repr, DecidableEq

/-- The per-invocation environment of `_compare_hists`. -/
structure CompareEnv where
  casename : String
  testcase : String
  rundir : String
  models : List String
  histsOf1 : String → List String
  histsOf2 : String → List String

/-- One matched pair (source lines 251-275): non-netcdf first names are
skipped (log message only); otherwise the comparator oracle runs and the
outcome is folded into the comments and the success flag. -/
def processPair (cprncF : CprncOracle) (model dir1 dir2 : String)
    (ignoreFld : Bool) (st : OrchState) (pr : String × String) :
    Except String OrchState :=
  if containsSub pr.1 ".nc" = false then .ok st
  else
    match cprncF model (pathJoin dir1 pr.1) (pathJoin dir2 pr.2)
        st.multiinstDC ignoreFld with
    | .error e => .error e
    | .ok (success, logFile, comment) =>
        if success then
          .ok { st with comments :=
            st.comments ++ "    " ++ pr.1 ++ " matched " ++ pr.2 ++ "\n" }
        else
          .ok { st with
            allSuccess := false,
            comments := st.comments ++
              (if comment == CPRNC_FIELDLISTS_DIFFER then
                "    " ++ pr.1 ++ " " ++ FIELDLISTS_DIFFER ++ " " ++ pr.2 ++ "\n"
              else
                "    " ++ pr.1 ++ " " ++ DIFF_COMMENT ++ " " ++ pr.2 ++ "\n") ++
              "    cat " ++ logFile ++ "\n" }

/-- The missing-file loops (source lines 237-247): files with `initial` in
the name are exempt; every other leftover adds a comment and fails the
batch. -/
def missingFold (marker dir suffix : String) (st : OrchState)
    (items : List String) : OrchState :=
  items.foldl (fun st item =>
    if containsSub item "initial" then st
    else { st with
      allSuccess := false,
      comments := st.comments ++ "    File " ++ "'" ++ item ++ "' " ++ marker ++
        " in " ++ "'" ++ dir ++ "' with suffix " ++ "'" ++ suffix ++ "'" ++ "\n" }) st

/-- One model tag of the orchestrator loop (source lines 225-275). -/
def processModel (cprncF : CprncOracle) (env : CompareEnv)
    (dir1 dir2 suffix1 suffix2 : String) (ignoreFld : Bool)
    (st : OrchState) (model : String) : Except String OrchState :=
  let st : OrchState :=
    { allSuccess := st.allSuccess, numCompared := st.numCompared,
      comments := st.comments ++ "  comparing model " ++ "'" ++ model ++ "'" ++ "\n",
      multiinstDC := if model == "cpl" && suffix2 == "multiinst" then true
        else st.multiinstDC }
  let h1 := env.histsOf1 model
  let h2 := env.histsOf2 model
  if h1.isEmpty && h2.isEmpty then
    .ok { st with comments :=
      st.comments ++ "    no hist files found for model " ++ model ++ "\n" }
  else
    match histsMatch model h1 h2 suffix1 suffix2 with
    | .error e => .error e
    | .ok (oneNotTwo, twoNotOne, matchUps) =>
        let st := missingFold NO_COMPARE dir2 suffix2 st oneNotTwo
        let st := missingFold NO_ORIGINAL dir1 suffix1 st twoNotOne
        let st := { st with numCompared := st.numCompared + matchUps.length }
        List.foldlM (processPair cprncF model dir1 dir2 ignoreFld) st matchUps

/-- The initial loop state of `_compare_hists`: an all-clear flag, no
comparisons, the header comment, and the multi-instance driver flag off. -/
def initState (casename dir1 dir2 suffix1 suffix2 : String) : OrchState :=
  { allSuccess := true, numCompared := 0,
    comments := "Comparing hists for case " ++ "'" ++ casename ++ "'" ++
      " dir1=" ++ "'" ++ dir1 ++ "'" ++ ", suffix1=" ++ "'" ++ suffix1 ++ "'" ++
      ",  dir2=" ++ "'" ++ dir2 ++ "'" ++ " suffix2=" ++ "'" ++ suffix2 ++ "'" ++ "\n",
    multiinstDC := false }

/-- The orchestrator loop over all model tags. -/
def runModels (cprncF : CprncOracle) (env : CompareEnv)
    (dir1 dir2 suffix1 suffix2 : String) (ignoreFld : Bool) :
    Except String OrchState :=
  List.foldlM (processModel cprncF env dir1 dir2 suffix1 suffix2 ignoreFld)
    (initState env.casename dir1 dir2 suffix1 suffix2)
    env.models

/-- Embedding of `_compare_hists`: precondition check, the model loop, the
zero-compared check (exempting the `PFS` test kind) and the final
`PASS`/`FAIL` token.  In the zero-compared branch `all_success` has just
been set to `False`, so the appended token is necessarily `FAIL`. -/
def compareHists (cprncF : CprncOracle) (env : CompareEnv)
    (dir1 dir2 suffix1 suffix2 : String) (ignoreFld : Bool) :
    Except String (Bool × String) :=
  if dir1 == dir2 && suffix1 == suffix2 then .error "Comparing files to themselves?"
  else
    match runModels cprncF env dir1 dir2 suffix1 suffix2 ignoreFld with
    | .error e => .error e
    | .ok st =>
        if st.numCompared == 0 && env.testcase != "PFS" then
          .ok (false, st.comments ++
            "Did not compare any hist files! Missing baselines?\n" ++ "FAIL")
        else
          .ok (st.allSuccess,
            st.comments ++ (if st.allSuccess then "PASS" else "FAIL"))

/-- Embedding of `compare_test(case, suffix1, suffix2, ignore_fieldlist_diffs)`:
both locations are the run directory. -/
def compare_test (cprncF : CprncOracle) (env : CompareEnv)
    (suffix1 suffix2 : String) (ignoreFld : Bool) :
    Except String (Bool × String) :=
  compareHists cprncF env env.rundir env.rundir suffix1 suffix2 ignoreFld

/-! ## `compare_baseline` (hist_utils.py lines 379-413) -/

/-- The configuration and filesystem facts `compare_baseline` consults:
the baseline root and case (from the `case` object), directory existence,
`get_model()`, and the lines of the bless log when that file exists. -/
structure BaselineEnv where
  baselineRoot : String
  basecmpCase : String
  isdir : String → Bool
  model : String
  blessLog : Option (List String)

/-- The directories whose existence is checked, in order: without an
override, the baseline root then the computed baseline directory;
with an override, just the override. -/
def dirsToCheck (benv : BaselineEnv) (baselineDir : Option String) : List String :=
  match baselineDir with
  | none => [benv.baselineRoot, pathJoin benv.baselineRoot benv.basecmpCase]
  | some d => [d]

/-- The directory actually compared against. -/
def basecmpDirOf (benv : BaselineEnv) (baselineDir : Option String) : String :=
  match baselineDir with
  | none => pathJoin benv.baselineRoot benv.basecmpCase
  | some d => d

/-- The bless-log annotation of `compare_baseline` (source lines 405-411):
for the e3sm model, when the bless log exists and has lines, the last line
is appended after the comments (hence after the `PASS`/`FAIL` token). -/
def blessAdjust (benv : BaselineEnv) (comments : String) : String :=
  if benv.model == "e3sm" then
    match benv.blessLog with
    | some lines =>
        if lines.isEmpty then comments
        else comments ++ "\n  Most recent bless: " ++ lines.getLastD ""
    | none => comments
  else comments

/-- Embedding of `compare_baseline(case, baseline_dir, ...)`: the first missing
directory short-circuits with the `TEST_NO_BASELINES_COMMENT` message;
otherwise `_compare_hists` runs against the baseline directory and the
bless-log annotation is applied. -/
def compare_baseline (cprncF : CprncOracle) (cenv : CompareEnv)
    (benv : BaselineEnv) (baselineDir : Option String) :
    Except String (Bool × String) :=
  match (dirsToCheck benv baselineDir).find? (fun d => !benv.isdir d) with
  | some bdir =>
      .ok (false, "ERROR " ++ TEST_NO_BASELINES_COMMENT ++ " baseline directory " ++
        "'" ++ bdir ++ "'" ++ " does not exist")
  | none =>
      match compareHists cprncF cenv cenv.rundir (basecmpDirOf benv baselineDir)
          "" "" false with
      | .error e => .error e
      | .ok (success, comments) => .ok (success, blessAdjust benv comments)

/-! ## `copy_histfiles` and `rename_all_hist_files`
(hist_utils.py lines 43-125)

The filesystem copies/renames are side effects; the observable result is
the comment blob, or the `expect` failure when no file was processed.
Note that both counters are incremented by the full length of each
archive listing *before* any per-file filtering. -/

/-- The collaborators of the save/rename operations: the compset component
list (the iterator appends `cpl`), the two archive listings, and the run
directory. -/
structure SaveEnv where
  components : List String
  latestHists : String → List String
  allHists : String → List String
  rundir : String

/-- Embedding of `_iter_model_file_substrs`: the compset components plus `cpl`. -/
def iterModelFileSubstrs (components : List String) : List String :=
  components ++ ["cpl"]

/-- One model of the `copy_histfiles` loop: the comment grows and the
counter advances by the *full* listing length, before the non-netcdf
filter. -/
def copyModelStep (env : SaveEnv) (suffix : String) (acc : String × Nat)
    (model : String) : String × Nat :=
  let c := acc.1 ++ "  Copying hist files for model " ++ "'" ++ model ++ "'" ++ "\n"
  let hists := env.latestHists model
  let c := hists.foldl (fun c h =>
    let testHist := pathJoin env.rundir h
    if !strEndsWith testHist ".nc" then c
    else c ++ "    Copying " ++ "'" ++ testHist ++ "'" ++ " to " ++ "'" ++
      testHist ++ "." ++ suffix ++ "'" ++ "\n") c
  (c, acc.2 + hists.length)

/-- Embedding of `copy_histfiles(case, suffix)` (non-netcdf files are skipped after
being counted). -/
def copy_histfiles (env : SaveEnv) (suffix : String) : Except String String :=
  let res := (iterModelFileSubstrs env.components).foldl (copyModelStep env suffix)
    ("Copying hist files to suffix " ++ "'" ++ suffix ++ "'" ++ "\n", 0)
  if res.2 > 0 then .ok res.1
  else .error ("copy_histfiles failed: no hist files found in rundir " ++
    "'" ++ env.rundir ++ "'")

/-- One model of the `rename_all_hist_files` loop (the coupler is queried
under the `drv` alias). -/
def renameModelStep (env : SaveEnv) (suffix : String) (acc : String × Nat)
    (model : String) : String × Nat :=
  let c := acc.1 ++ "  Renaming hist files for model " ++ "'" ++ model ++ "'" ++ "\n"
  let mname := if model == "cpl" then "drv" else model
  let hists := env.allHists mname
  let c := hists.foldl (fun c h =>
    let testHist := pathJoin env.rundir h
    c ++ "    Renaming " ++ "'" ++ testHist ++ "'" ++ " to " ++ "'" ++
      testHist ++ "." ++ suffix ++ "'" ++ "\n") c
  (c, acc.2 + hists.length)

/-- Embedding of `rename_all_hist_files(case, suffix)`. -/
def rename_all_hist_files (env : SaveEnv) (suffix : String) :
    Except String String :=
  let res := (iterModelFileSubstrs env.components).foldl (renameModelStep env suffix)
    ("Renaming hist files by adding suffix " ++ "'" ++ suffix ++ "'" ++ "\n", 0)
  if res.2 > 0 then .ok res.1
  else .error ("renaming failed: no hist files found in rundir " ++
    "'" ++ env.rundir ++ "'")

/-- Total number of files `copy_histfiles` processes. -/
def totalLatest (env : SaveEnv) : Nat :=
  ((iterModelFileSubstrs env.components).map
    (fun m => (env.latestHists m).length)).sum

/-- Total number of files `rename_all_hist_files` processes. -/
def totalAll (env : SaveEnv) : Nat :=
  ((iterModelFileSubstrs env.components).map
    (fun m => (env.allHists (if m == "cpl" then "drv" else m)).length)).sum

/-! ## `get_ts_synopsis` (hist_utils.py lines 506-570) -/

/-- One line of the scanning loop: `(has_fieldlist_differences, has_bfails,
has_real_fails)`.  The inner loop over
`COMPARISON_FAILURE_COMMENT_OPTIONS` (a Python set of two strings) is an
order-insensitive disjunction. -/
def scanStep (acc : Bool × Bool × Bool) (line : String) : Bool × Bool × Bool :=
  (acc.1 || containsSub line FIELDLISTS_DIFFER,
   acc.2.1 || containsSub line NO_COMPARE,
   acc.2.2 || COMPARISON_FAILURE_COMMENT_OPTIONS.any (fun c => containsSub line c))

def scanFlags (lines : List String) : Bool × Bool × Bool :=
  lines.foldl scanStep (false, false, false)

/-- Embedding of `get_ts_synopsis(comments)`.  The source computes the three flags in
one scan and then branches; `scanFlags` is pure, so the repeated calls
below are the same three booleans. -/
def get_ts_synopsis (comments : String) : String :=
  if comments = "" then ""
  else if containsSub (pyStrip comments) "\n" = false then pyStrip comments
  else if (scanFlags (pySplitlines comments)).2.2 then "DIFF"
  else if (scanFlags (pySplitlines comments)).1 && (scanFlags (pySplitlines comments)).2.1 then
    "MULTIPLE ISSUES: field lists differ and some baseline files were missing"
  else if (scanFlags (pySplitlines comments)).1 then
    "FIELDLIST field lists differ (otherwise bit-for-bit)"
  else if (scanFlags (pySplitlines comments)).2.1 then
    "ERROR " ++ TEST_NO_BASELINES_COMMENT ++ " some baseline files were missing"
  else ""

/-- A blob ends with a newline. -/
abbrev endsNl (s : String) : Prop := s.data.getLast? = some '\n'

/-! ## Concrete environments for witnesses and counterexamples -/

/-- A comparator oracle that always reports an identical pair. -/
def cprncAllOk : CprncOracle := fun _ _ _ _ _ => .ok (true, "log", "")

/-- A comparator oracle that always reports a differing pair. -/
def cprncAllDiff : CprncOracle := fun _ _ _ _ _ => .ok (false, "log2", "")

/-- An empty case of the baseline-exempt `PFS` test kind. -/
def envPFS : CompareEnv :=
  { casename := "X", testcase := "PFS", rundir := "r", models := [],
    histsOf1 := fun _ => [], histsOf2 := fun _ => [] }

/-- An empty case of a non-exempt test kind. -/
def envSMS : CompareEnv :=
  { casename := "X", testcase := "SMS", rundir := "r", models := [],
    histsOf1 := fun _ => [], histsOf2 := fun _ => [] }

/-- A one-component case whose only matched pair is a non-netcdf file. -/
def envTxt : CompareEnv :=
  { casename := "X", testcase := "SMS", rundir := "r", models := ["cam"],
    histsOf1 := fun _ => ["cam.h0.txt"], histsOf2 := fun _ => ["cam.h0.txt"] }

/-- A baseline environment in which no directory exists. -/
def benvNoDirs : BaselineEnv :=
  { baselineRoot := "broot", basecmpCase := "case", isdir := fun _ => false,
    model := "x", blessLog := none }

/-- A baseline environment with every directory present, the e3sm model
and a one-line bless log. -/
def benvBless : BaselineEnv :=
  { baselineRoot := "broot", basecmpCase := "case", isdir := fun _ => true,
    model := "e3sm", blessLog := some ["sha:abc date:xyz\n"] }

/-- A save/rename environment with one netcdf hist file and no
renameable files. -/
def saveEnvOne : SaveEnv :=
  { components := ["cam"], latestHists := fun _ => ["cam.h0.X.nc"],
    allHists := fun _ => [], rundir := "r" }

/-- A save/rename environment with no files at all. -/
def saveEnvEmpty : SaveEnv :=
  { components := ["cam"], latestHists := fun _ => [],
    allHists := fun _ => [], rundir := "r" }

/-! ## Helper lemmas -/

theorem insertLe_length (le : α → α → Bool) (x : α) :
    ∀ l : List α, (insertLe le x l).length = l.length + 1 := by
  intro l
  induction l with
  | nil => rfl
  | cons y ys ih =>
      simp only [insertLe]
      split <;> simp [ih]

theorem sortBy_length (le : α → α → Bool) :
    ∀ l : List α, (sortBy le l).length = l.length := by
  intro l
  induction l with
  | nil => rfl
  | cons x xs ih => simp [sortBy, insertLe_length, ih]

theorem mapME_mem {f : α → Except String β} :
    ∀ {l : List α} {l' : List β}, mapME f l = .ok l' →
      ∀ y ∈ l', ∃ x ∈ l, f x = .ok y := by
  intro l
  induction l with
  | nil =>
      intro l' h y hy
      simp only [mapME] at h
      cases h
      simp at hy
  | cons x xs ih =>
      intro l' h y hy
      simp only [mapME] at h
      cases hx : f x with
      | error e => rw [hx] at h; cases h
      | ok b =>
          rw [hx] at h
          cases hxs : mapME f xs with
          | error e => rw [hxs] at h; cases h
          | ok bs =>
              rw [hxs] at h
              cases h
              rcases List.mem_cons.mp hy with h1 | h2
              · exact ⟨x, List.mem_cons_self x xs, h1 ▸ hx⟩
              · rcases ih hxs y h2 with ⟨x', hx', hfx'⟩
                exact ⟨x', List.mem_cons_of_mem x hx', hfx'⟩

theorem strData_append (a b : String) : (a ++ b).data = a.data ++ b.data := by
  cases a; cases b; rfl

theorem strMk_data (s : String) : String.mk s.data = s := rfl

theorem strAppend_assoc (a b c : String) : (a ++ b) ++ c = a ++ (b ++ c) := by
  cases a; cases b; cases c
  show String.mk _ = String.mk _
  simp [String.append, List.append_assoc]

theorem endsNl_append (a b : String) (h : endsNl b) : endsNl (a ++ b) := by
  unfold endsNl at *
  rw [strData_append]
  cases hb : b.data with
  | nil => rw [hb] at h; cases h
  | cons x xs =>
      rw [hb] at h
      rw [List.getLast?_append_of_ne_nil]
      · exact h
      · simp

theorem takeWhile_append_all {p : Char → Bool} {l : List Char} (l' : List Char)
    (h : ∀ a ∈ l, p a = true) :
    (l ++ l').takeWhile p = l ++ l'.takeWhile p := by
  induction l with
  | nil => simp
  | cons x xs ih =>
      simp only [List.cons_append, List.takeWhile_cons]
      rw [h x (List.mem_cons_self x xs)]
      simp [ih (fun a ha => h a (List.mem_cons_of_mem x ha))]

theorem lastLine_append (c x : String) (hc : endsNl c)
    (hx : ∀ a ∈ x.data, (a != '\n') = true) :
    lastLine (c ++ x) = x := by
  unfold lastLine
  rw [strData_append, List.reverse_append]
  rw [takeWhile_append_all c.data.reverse
    (fun a ha => hx a (List.mem_reverse.mp ha))]
  unfold endsNl at hc
  rw [← List.head?_reverse] at hc
  cases hrev : c.data.reverse with
  | nil => rw [hrev] at hc; cases hc
  | cons y ys =>
      rw [hrev] at hc
      simp only [List.head?_cons, Option.some.injEq] at hc
      subst hc
      rw [List.takeWhile_cons]
      simp [strMk_data]

theorem containsSub_append_right (a b pat : String)
    (h : containsSub b pat = true) : containsSub (a ++ b) pat = true := by
  unfold containsSub at *
  rw [List.any_eq_true] at h ⊢
  rcases h with ⟨i, hi, hp⟩
  refine ⟨a.data.length + i, ?_, ?_⟩
  · rw [List.mem_range] at hi ⊢
    rw [strData_append, List.length_append]
    omega
  · rw [strData_append]
    rw [decide_eq_true_iff] at hp ⊢
    rw [List.drop_append]
    exact hp

theorem sum_pos_of_mem {l : List Nat} {x : Nat} (hx : x ∈ l) (hp : 0 < x) :
    0 < l.sum := by
  induction l with
  | nil => cases hx
  | cons y ys ih =>
      rw [List.sum_cons]
      rcases List.mem_cons.mp hx with h | h
      · omega
      · have := ih h; omega

theorem splitlinesAux_ne_nil :
    ∀ (l acc : List Char), acc ≠ [] ∨ l ≠ [] → splitlinesAux acc l ≠ [] := by
  intro l
  induction l with
  | nil =>
      intro acc h
      rcases h with h | h
      · simp [splitlinesAux, h]
      · exact absurd rfl h
  | cons c rest ih =>
      intro acc _
      simp only [splitlinesAux]
      split
      · simp
      · exact ih (c :: acc) (Or.inl (by simp))

theorem pySplitlines_ne_nil (s : String) (h : s ≠ "") : pySplitlines s ≠ [] := by
  unfold pySplitlines
  intro hc
  rw [List.map_eq_nil_iff] at hc
  refine splitlinesAux_ne_nil s.data [] (Or.inr ?_) hc
  intro hd
  apply h
  cases s
  simp only at hd
  rw [hd]

theorem containsSub_ne_empty {s pat : String} (h : containsSub s pat = true)
    (hpat : pat ≠ "") : s ≠ "" := by
  intro hs
  subst hs
  unfold containsSub at h
  simp only [List.any_eq_true, List.mem_range] at h
  rcases h with ⟨i, _, hp⟩
  rw [decide_eq_true_iff] at hp
  simp only [List.drop_nil, List.take_nil] at hp
  apply hpat
  cases pat
  simp only at hp
  rw [← hp]

theorem foldlM_ok_preserve {σ α : Type} {P : σ → Prop}
    (step : σ → α → Except String σ)
    (hstep : ∀ s x s', step s x = .ok s' → P s → P s') :
    ∀ (l : List α) (s s' : σ), List.foldlM step s l = .ok s' → P s → P s' := by
  intro l
  induction l with
  | nil =>
      intro s s' h hp
      rw [List.foldlM_nil] at h
      cases h
      exact hp
  | cons x xs ih =>
      intro s s' h hp
      rw [List.foldlM_cons] at h
      cases hx : step s x with
      | error e => rw [hx] at h; cases h
      | ok s1 =>
          rw [hx] at h
          exact ih s1 s' h (hstep s x s1 hx hp)

theorem endsNlComments_processPair (cprncF : CprncOracle)
    (model dir1 dir2 : String) (ignoreFld : Bool) (st : OrchState)
    (pr : String × String) (st' : OrchState)
    (h : processPair cprncF model dir1 dir2 ignoreFld st pr = .ok st')
    (hp : endsNl st.comments) : endsNl st'.comments := by
  unfold processPair at h
  split at h
  · cases h; exact hp
  · split at h
    · cases h
    · split at h <;>
      · cases h
        exact endsNl_append _ _ (by decide)

theorem endsNlComments_missingFold (marker dir suffix : String) :
    ∀ (items : List String) (st : OrchState), endsNl st.comments →
      endsNl (missingFold marker dir suffix st items).comments := by
  intro items
  induction items with
  | nil => intro st hp; exact hp
  | cons x xs ih =>
      intro st hp
      unfold missingFold at ih ⊢
      rw [List.foldl_cons]
      apply ih
      split
      · exact hp
      · exact endsNl_append _ _ (by decide)

theorem endsNlComments_processModel (cprncF : CprncOracle) (env : CompareEnv)
    (dir1 dir2 s1 s2 : String) (ign : Bool) (st : OrchState) (model : String)
    (st' : OrchState)
    (h : processModel cprncF env dir1 dir2 s1 s2 ign st model = .ok st')
    (_hp : endsNl st.comments) : endsNl st'.comments := by
  simp only [processModel] at h
  have hp1 : endsNl (st.comments ++ "  comparing model " ++ "'" ++ model ++ "'" ++ "\n") :=
    endsNl_append _ _ (by decide)
  split at h
  · cases h
    exact endsNl_append _ _ (by decide)
  · split at h
    · cases h
    · refine @foldlM_ok_preserve OrchState (String × String)
        (fun s => endsNl s.comments) _ ?_ _ _ _ h ?_
      · intro s x s'' hs hps
        exact endsNlComments_processPair cprncF model dir1 dir2 ign s x s'' hs hps
      · exact endsNlComments_missingFold _ _ _ _ _
          (endsNlComments_missingFold _ _ _ _ _ hp1)

theorem runModels_endsNl (cprncF : CprncOracle) (env : CompareEnv)
    (dir1 dir2 s1 s2 : String) (ign : Bool) (st : OrchState)
    (h : runModels cprncF env dir1 dir2 s1 s2 ign = .ok st) :
    endsNl st.comments := by
  unfold runModels at h
  refine @foldlM_ok_preserve OrchState String (fun s => endsNl s.comments)
    _ ?_ _ _ _ h (endsNl_append _ _ (by decide))
  intro s x s' hs hp
  exact endsNlComments_processModel cprncF env dir1 dir2 s1 s2 ign s x s' hs hp

/-- Whenever `_compare_hists` returns `(success, comments)`, the final
line of `comments` is exactly the `PASS`/`FAIL` token matching `success`. -/
theorem compareHists_token (cprncF : CprncOracle) (env : CompareEnv)
    (dir1 dir2 s1 s2 : String) (ign : Bool) (b : Bool) (c : String)
    (hok : compareHists cprncF env dir1 dir2 s1 s2 ign = .ok (b, c)) :
    lastLine c = (if b then "PASS" else "FAIL") := by
  unfold compareHists at hok
  split at hok
  · cases hok
  · cases hrun : runModels cprncF env dir1 dir2 s1 s2 ign with
    | error e => rw [hrun] at hok; cases hok
    | ok st =>
        rw [hrun] at hok
        have hnl : endsNl st.comments :=
          runModels_endsNl cprncF env dir1 dir2 s1 s2 ign st hrun
        split at hok
        · rename_i x e heq
          cases heq
        · rename_i x st2 heq
          cases heq
          split at hok
          · cases hok
            rw [lastLine_append _ _ (endsNl_append _ _ (by decide)) (by decide)]
            rfl
          · cases hok
            rw [lastLine_append _ _ hnl (by split <;> decide)]

theorem histsMatch_nil (model s1 s2 : String) :
    histsMatch model [] [] s1 s2 = .ok ([], [], []) := rfl

theorem foldPairs_skip (cprncF : CprncOracle) (model dir1 dir2 : String)
    (ign : Bool) :
    ∀ (pairs : List (String × String)) (st : OrchState),
      (∀ pr ∈ pairs, containsSub pr.1 ".nc" = false) →
      List.foldlM (processPair cprncF model dir1 dir2 ign) st pairs = .ok st := by
  intro pairs
  induction pairs with
  | nil => intro st _; rfl
  | cons p ps ih =>
      intro st h
      rw [List.foldlM_cons]
      have hp : processPair cprncF model dir1 dir2 ign st p = .ok st := by
        unfold processPair
        rw [if_pos (h p (List.mem_cons_self p ps))]
      rw [hp]
      exact ih st (fun pr hpr => h pr (List.mem_cons_of_mem p hpr))

theorem processModel_clean (env : CompareEnv) (dir1 dir2 s1 s2 : String)
    (ign : Bool) (m : String) (st : OrchState) (pms : List (String × String))
    (hm : histsMatch m (env.histsOf1 m) (env.histsOf2 m) s1 s2 = .ok ([], [], pms))
    (hnc : ∀ pr ∈ pms, containsSub pr.1 ".nc" = false) :
    ∃ st' : OrchState,
      (∀ g : CprncOracle, processModel g env dir1 dir2 s1 s2 ign st m = .ok st')
      ∧ st'.allSuccess = st.allSuccess
      ∧ st'.numCompared = st.numCompared + pms.length
      ∧ (endsNl st.comments → endsNl st'.comments) := by
  by_cases hE : ((env.histsOf1 m).isEmpty && (env.histsOf2 m).isEmpty) = true
  · have h1 : env.histsOf1 m = [] := by
      rcases Bool.and_eq_true_iff.mp hE with ⟨ha, _⟩
      exact List.isEmpty_iff.mp ha
    have h2 : env.histsOf2 m = [] := by
      rcases Bool.and_eq_true_iff.mp hE with ⟨_, hb⟩
      exact List.isEmpty_iff.mp hb
    rw [h1, h2, histsMatch_nil] at hm
    cases hm
    refine ⟨⟨st.allSuccess, st.numCompared,
        st.comments ++ "  comparing model " ++ "'" ++ m ++ "'" ++ "\n" ++
          "    no hist files found for model " ++ m ++ "\n",
        if (m == "cpl" && s2 == "multiinst") = true then true else st.multiinstDC⟩,
      fun g => ?_, rfl, by simp, fun hnl => endsNl_append _ _ (by decide)⟩
    simp only [processModel, h1, h2, List.isEmpty_nil, Bool.and_self, if_true]
  · refine ⟨⟨st.allSuccess, st.numCompared + pms.length,
        st.comments ++ "  comparing model " ++ "'" ++ m ++ "'" ++ "\n",
        if (m == "cpl" && s2 == "multiinst") = true then true else st.multiinstDC⟩,
      fun g => ?_, rfl, rfl, fun hnl => endsNl_append _ _ (by decide)⟩
    simp only [processModel]
    rw [if_neg hE, hm]
    exact foldPairs_skip g m dir1 dir2 ign pms
      ⟨st.allSuccess, st.numCompared + pms.length,
        st.comments ++ "  comparing model " ++ "'" ++ m ++ "'" ++ "\n",
        if (m == "cpl" && s2 == "multiinst") = true then true else st.multiinstDC⟩ hnc

theorem runFold_clean (env : CompareEnv) (dir1 dir2 s1 s2 : String) (ign : Bool)
    (ps : String → List (String × String)) :
    ∀ (models : List String) (st : OrchState),
      (∀ m ∈ models,
        histsMatch m (env.histsOf1 m) (env.histsOf2 m) s1 s2 = .ok ([], [], ps m)) →
      (∀ m ∈ models, ∀ pr ∈ ps m, containsSub pr.1 ".nc" = false) →
      endsNl st.comments →
      ∃ st' : OrchState,
        (∀ g : CprncOracle,
          List.foldlM (processModel g env dir1 dir2 s1 s2 ign) st models = .ok st')
        ∧ st'.allSuccess = st.allSuccess
        ∧ st'.numCompared = st.numCompared + (models.map (fun m => (ps m).length)).sum
        ∧ endsNl st'.comments := by
  intro models
  induction models with
  | nil =>
      intro st _ _ hnl
      exact ⟨st, fun g => rfl, rfl, by simp, hnl⟩
  | cons m ms ih =>
      intro st hm hnc hnl
      obtain ⟨st1, hrun1, ha1, hn1, hnl1⟩ :=
        processModel_clean env dir1 dir2 s1 s2 ign m st (ps m)
          (hm m (List.mem_cons_self m ms)) (hnc m (List.mem_cons_self m ms))
      obtain ⟨st2, hrun2, ha2, hn2, hnl2⟩ :=
        ih st1 (fun x hx => hm x (List.mem_cons_of_mem m hx))
          (fun x hx => hnc x (List.mem_cons_of_mem m hx)) (hnl1 hnl)
      refine ⟨st2, fun g => ?_, by rw [ha2, ha1], ?_, hnl2⟩
      · rw [List.foldlM_cons, hrun1 g]
        exact hrun2 g
      · rw [hn2, hn1]
        simp only [List.map_cons, List.sum_cons]
        omega

theorem scanFlags_aux_rf (lines : List String) :
    ∀ a : Bool × Bool × Bool,
      (lines.foldl scanStep a).2.2 =
        (a.2.2 || lines.any
          (fun l => COMPARISON_FAILURE_COMMENT_OPTIONS.any (fun c => containsSub l c))) := by
  induction lines with
  | nil => intro a; simp
  | cons l ls ih =>
      intro a
      rw [List.foldl_cons, ih]
      simp only [scanStep, List.any_cons]
      rw [Bool.or_assoc]

/-- Any multi-line blob with a true-failure marker on some line reduces to
the fixed literal `DIFF`. -/
theorem synopsis_diff_of_real (b : String)
    (hml : containsSub (pyStrip b) "\n" = true)
    (hreal : ∃ l ∈ pySplitlines b,
      COMPARISON_FAILURE_COMMENT_OPTIONS.any (fun c => containsSub l c) = true) :
    get_ts_synopsis b = "DIFF" := by
  have hne : b ≠ "" := by
    intro hb
    subst hb
    exact absurd hml (by decide)
  have hrf : (scanFlags (pySplitlines b)).2.2 = true := by
    unfold scanFlags
    rw [scanFlags_aux_rf]
    rcases hreal with ⟨l, hl, hc⟩
    simp only [Bool.false_or]
    exact List.any_eq_true.mpr ⟨l, hl, hc⟩
  unfold get_ts_synopsis
  rw [if_neg hne, if_neg (by simp [hml]), if_pos hrf]

/-- When no bless annotation applies (non-e3sm model, or no bless log, or
an empty one), `blessAdjust` is the identity. -/
theorem blessAdjust_id (benv : BaselineEnv) (c : String)
    (h : benv.model = "e3sm" → benv.blessLog = none ∨ benv.blessLog = some []) :
    blessAdjust benv c = c := by
  unfold blessAdjust
  by_cases hm : (benv.model == "e3sm") = true
  · rw [if_pos hm]
    rcases h (by simpa using hm) with hb | hb <;> simp [hb]
  · rw [if_neg hm]

theorem copyFold_count (env : SaveEnv) (suffix : String) :
    ∀ (models : List String) (acc : String × Nat),
      (models.foldl (copyModelStep env suffix) acc).2 =
        acc.2 + (models.map (fun m => (env.latestHists m).length)).sum := by
  intro models
  induction models with
  | nil => intro acc; simp
  | cons m ms ih =>
      intro acc
      rw [List.foldl_cons, ih]
      simp only [copyModelStep, List.map_cons, List.sum_cons]
      omega

theorem renameFold_count (env : SaveEnv) (suffix : String) :
    ∀ (models : List String) (acc : String × Nat),
      (models.foldl (renameModelStep env suffix) acc).2 =
        acc.2 + (models.map
          (fun m => (env.allHists (if m == "cpl" then "drv" else m)).length)).sum := by
  intro models
  induction models with
  | nil => intro acc; simp
  | cons m ms ih =>
      intro acc
      rw [List.foldl_cons, ih]
      simp only [renameModelStep, List.map_cons, List.sum_cons]
      omega

/-! ## Claim theorems -/

/-- C5: given the single file `cam.h0.X.nc` in set 1 and the two files
`cam_0001.h0.X.nc`, `cam_0002.h0.X.nc` in set 2 with model tag `cam` and
empty suffixes, `_hists_match` returns exactly two pairs, both referencing
the set-1 file (one per set-2 instance file), and both leftover lists are
empty. -/
theorem c5_multiinstance_pairs :
    histsMatch "cam" ["cam.h0.X.nc"] ["cam_0001.h0.X.nc", "cam_0002.h0.X.nc"] "" "" =
      .ok ([], [],
        [("cam.h0.X.nc", "cam_0001.h0.X.nc"), ("cam.h0.X.nc", "cam_0002.h0.X.nc")]) := by
  decide

/-- C2: when no (normalized) filename matches the 4-digit
ensemble-instance pattern, a successful `_hists_match` result satisfies
`|match_ups| + |one_not_two| = |hists1|` and
`|match_ups| + |two_not_one| = |hists2|` — every input file is accounted
for exactly once; the in-code `expect` checks mean a violation aborts
instead of returning. -/
theorem c2_accounting (model : String) (hists1 hists2 n1 n2 : List String)
    (s1 s2 : String) (o t : List String) (mu : List (String × String))
    (hn1 : normalizeAll model hists1 s1 = .ok n1)
    (hn2 : normalizeAll model hists2 s2 = .ok n2)
    (hmp1 : ∀ x ∈ n1, multiPattern x = none)
    (hmp2 : ∀ x ∈ n2, multiPattern x = none)
    (hok : histsMatch model hists1 hists2 s1 s2 = .ok (o, t, mu)) :
    mu.length + o.length = hists1.length ∧ mu.length + t.length = hists2.length := by
  have hm1 : multiOf n1 = [] := List.filterMap_eq_nil_iff.mpr hmp1
  have hm2 : multiOf n2 = [] := List.filterMap_eq_nil_iff.mpr hmp2
  have hrt : reconTriple hists1 hists2 n1 n2 = baseTriple hists1 hists2 n1 n2 := by
    unfold reconTriple
    rw [hm1, hm2, if_pos rfl]
  have hswap : histsMatch model hists1 hists2 s1 s2 =
      histsMatchChecked hists1 hists2 n1 n2 := by
    unfold histsMatch
    rw [hn1, hn2]
  rw [hswap] at hok
  unfold histsMatchChecked at hok
  rw [hm1, hm2, hrt] at hok
  rw [if_neg (by simp)] at hok
  have hb1 : (baseTriple hists1 hists2 n1 n2).1.length = (keysOnlyIn n1 n2).length := by
    simp [baseTriple, sortBy_length]
  have hb2 : (baseTriple hists1 hists2 n1 n2).2.1.length = (keysOnlyIn n2 n1).length := by
    simp [baseTriple, sortBy_length]
  split at hok
  · rename_i g1
    split at hok
    · rename_i g2
      injection hok with hX
      have ho : (baseTriple hists1 hists2 n1 n2).1 = o := congrArg Prod.fst hX
      have ht : (baseTriple hists1 hists2 n1 n2).2.1 = t :=
        congrArg (fun p => p.2.1) hX
      have hmu : (baseTriple hists1 hists2 n1 n2).2.2 = mu :=
        congrArg (fun p => p.2.2) hX
      constructor
      · rw [← hmu, ← ho, hb1]
        exact g1
      · rw [← hmu, ← ht, hb2]
        exact g2
    · cases hok
  · cases hok

/-- C2 witness: the first doctest of `_hists_match`, 2 + 1 = 3 files on
each side. -/
theorem c2_witness :
    ([("FOO.G.cpl.h2.nc", "cpl.h2.nc"), ("FOO.G.cpl.h3.nc", "cpl.h3.nc")]
        : List (String × String)).length
      + (["FOO.G.cpl.h1.nc"] : List String).length
      = (["FOO.G.cpl.h1.nc", "FOO.G.cpl.h2.nc", "FOO.G.cpl.h3.nc"] : List String).length
    ∧ ([("FOO.G.cpl.h2.nc", "cpl.h2.nc"), ("FOO.G.cpl.h3.nc", "cpl.h3.nc")]
        : List (String × String)).length
      + (["cpl.h4.nc"] : List String).length
      = (["cpl.h2.nc", "cpl.h3.nc", "cpl.h4.nc"] : List String).length :=
  c2_accounting "cpl"
    ["FOO.G.cpl.h1.nc", "FOO.G.cpl.h2.nc", "FOO.G.cpl.h3.nc"]
    ["cpl.h2.nc", "cpl.h3.nc", "cpl.h4.nc"]
    ["cpl.h1.nc", "cpl.h2.nc", "cpl.h3.nc"] ["cpl.h2.nc", "cpl.h3.nc", "cpl.h4.nc"]
    "" "" ["FOO.G.cpl.h1.nc"] ["cpl.h4.nc"]
    [("FOO.G.cpl.h2.nc", "cpl.h2.nc"), ("FOO.G.cpl.h3.nc", "cpl.h3.nc")]
    (by decide) (by decide) (by decide) (by decide) (by decide)

/-- Counterexample to C3 as stated: (a) with the multi-instance coupler
flag set, a zero exit status whose output contains the IDENTICAL marker is
nevertheless classified `matched = false` (only the
`" 0 had non-zero differences"` phrase counts in that mode); (b) even
without that flag, when the IDENTICAL marker and the field-lists marker
are both present the IDENTICAL branch wins, so matched is `true` rather
than `ignoreFieldListDiffs = false`. -/
theorem c3_counterexample :
    (cprncClassify 0 "files seem to be IDENTICAL" true false = .ok (false, "")
      ∧ containsSub "files seem to be IDENTICAL" "files seem to be IDENTICAL" = true)
    ∧ cprncClassify 0
        "files seem to be IDENTICAL and the two files DIFFER only in their field lists"
        false false = .ok (true, "") := by
  exact ⟨⟨by decide, by decide⟩, by decide⟩

/-- C3 (amended): for every comparator invocation with the multi-instance
coupler mode off, the markers are checked in source order: a non-zero exit
yields `matched = false` with an empty note; on zero exit the IDENTICAL
marker yields `matched = true`, else the DIFFERENT marker yields
`matched = false`, else the field-lists marker yields
`matched = ignoreFieldListDiffs` with the `CPRNC_FIELDLISTS_DIFFER` note
exactly when not matched; a zero exit with none of the three markers is a
fatal error. -/
theorem c3_classification (cprStat : Int) (out : String) (ign : Bool) :
    (cprStat ≠ 0 → cprncClassify cprStat out false ign = .ok (false, ""))
    ∧ (cprStat = 0 → containsSub out "files seem to be IDENTICAL" = true →
        cprncClassify cprStat out false ign = .ok (true, ""))
    ∧ (cprStat = 0 → containsSub out "files seem to be IDENTICAL" = false →
        containsSub out "the two files seem to be DIFFERENT" = true →
        cprncClassify cprStat out false ign = .ok (false, ""))
    ∧ (cprStat = 0 → containsSub out "files seem to be IDENTICAL" = false →
        containsSub out "the two files seem to be DIFFERENT" = false →
        containsSub out "the two files DIFFER only in their field lists" = true →
        cprncClassify cprStat out false ign =
          .ok (ign, if ign then "" else CPRNC_FIELDLISTS_DIFFER))
    ∧ (cprStat = 0 → containsSub out "files seem to be IDENTICAL" = false →
        containsSub out "the two files seem to be DIFFERENT" = false →
        containsSub out "the two files DIFFER only in their field lists" = false →
        ∃ e, cprncClassify cprStat out false ign = .error e) := by
  refine ⟨?_, ?_, ?_, ?_, ?_⟩
  · intro hstat
    unfold cprncClassify
    rw [if_neg hstat]
  · intro hstat hid
    subst hstat
    simp [cprncClassify, hid]
  · intro hstat hid hdf
    subst hstat
    simp [cprncClassify, hid, hdf]
  · intro hstat hid hdf hfl
    subst hstat
    cases ign <;> simp [cprncClassify, hid, hdf, hfl]
  · intro hstat hid hdf hfl
    subst hstat
    exact ⟨"Did not find an expected summary string in cprnc output",
      by simp [cprncClassify, hid, hdf, hfl]⟩

/-- C3 witness: exit 0 with the IDENTICAL marker is a match. -/
theorem c3_witness :
    cprncClassify 0 "files seem to be IDENTICAL" false false = .ok (true, "") :=
  (c3_classification 0 "files seem to be IDENTICAL" false).2.1 rfl (by decide)

/-- Counterexample to C6 as stated: a single-line blob containing the
real-difference marker is returned verbatim by `get_ts_synopsis` (the
marker scan only runs on multi-line blobs), not reduced to `DIFF`. -/
theorem c6_counterexample :
    containsSub "File foo did NOT match bar" DIFF_COMMENT = true
    ∧ get_ts_synopsis "File foo did NOT match bar" = "File foo did NOT match bar"
    ∧ get_ts_synopsis "File foo did NOT match bar" ≠ "DIFF" := by
  exact ⟨by decide, by decide, by decide⟩

/-- C6 (amended): for every comment blob whose stripped text still
contains a newline (the multi-line case) and that has some line carrying a
real-difference marker (`had no original counterpart` or `did NOT match`),
`get_ts_synopsis` returns exactly the fixed literal `DIFF`, regardless of
whatever field-list-difference or missing-file markers are present
elsewhere in the blob; a single-line blob is instead returned verbatim
(stripped). -/
theorem c6_realdiff_dominates (b : String)
    (hml : containsSub (pyStrip b) "\n" = true)
    (hreal : ∃ l ∈ pySplitlines b,
      COMPARISON_FAILURE_COMMENT_OPTIONS.any (fun c => containsSub l c) = true) :
    get_ts_synopsis b = "DIFF" :=
  synopsis_diff_of_real b hml hreal

/-- C6 witness: a multi-line blob with all three marker kinds present
reduces to `DIFF`. -/
theorem c6_witness :
    get_ts_synopsis
      ("stuff\n    File foo did NOT match bar with suffix baz\n" ++
        "    File foo had a different field list from bar with suffix baz\n" ++
        "    File x had no compare counterpart in y with suffix z\nPass\n") = "DIFF" :=
  c6_realdiff_dominates _ (by decide)
    ⟨"    File foo did NOT match bar with suffix baz", by decide, by decide⟩

/-- C9: only the `had no compare counterpart` marker sets the
missing-baseline flag; the opposite-direction marker
`had no original counterpart` is one of the true-failure markers, so a
multi-line blob all of whose lines carry only that marker reduces to
`DIFF`, not to the missing-baseline message. -/
theorem c9_no_original_is_real (b : String)
    (hml : containsSub (pyStrip b) "\n" = true)
    (hall : ∀ l ∈ pySplitlines b, containsSub l NO_ORIGINAL = true) :
    get_ts_synopsis b = "DIFF"
    ∧ get_ts_synopsis b ≠
        "ERROR " ++ TEST_NO_BASELINES_COMMENT ++ " some baseline files were missing" := by
  have hne : b ≠ "" := by
    intro hb
    subst hb
    exact absurd hml (by decide)
  have hlines : pySplitlines b ≠ [] := pySplitlines_ne_nil b hne
  have hdiff : get_ts_synopsis b = "DIFF" := by
    apply synopsis_diff_of_real b hml
    obtain ⟨l, ls, hls⟩ := List.exists_cons_of_ne_nil hlines
    refine ⟨l, by rw [hls]; exact List.mem_cons_self l ls, ?_⟩
    have hino := hall l (by rw [hls]; exact List.mem_cons_self l ls)
    simp only [COMPARISON_FAILURE_COMMENT_OPTIONS, List.any_cons, List.any_nil]
    rw [hino]
    simp
  exact ⟨hdiff, by rw [hdiff]; decide⟩

/-- C9 witness: a blob of two `had no original counterpart` lines. -/
theorem c9_witness :
    get_ts_synopsis
        "File a had no original counterpart in d\nFile b had no original counterpart in d\n"
      = "DIFF"
    ∧ get_ts_synopsis
        "File a had no original counterpart in d\nFile b had no original counterpart in d\n"
      ≠ "ERROR " ++ TEST_NO_BASELINES_COMMENT ++ " some baseline files were missing" :=
  c9_no_original_is_real _ (by decide) (by decide)

/-- C7: `copy_histfiles` and `rename_all_hist_files` succeed exactly when
the number of files they process (summed over all components, before any
per-file filtering) is positive; processing zero files is the fatal
`expect` failure. -/
theorem c7_zero_processed_fatal :
    (∀ (env : SaveEnv) (suffix : String),
      (∃ c, copy_histfiles env suffix = .ok c) ↔ 0 < totalLatest env)
    ∧ (∀ (env : SaveEnv) (suffix : String),
      (∃ c, rename_all_hist_files env suffix = .ok c) ↔ 0 < totalAll env) := by
  constructor
  · intro env suffix
    have hc := copyFold_count env suffix (iterModelFileSubstrs env.components)
      ("Copying hist files to suffix " ++ "'" ++ suffix ++ "'" ++ "\n", 0)
    by_cases hpos : 0 < totalLatest env
    · refine ⟨fun _ => hpos, fun _ => ?_⟩
      simp only [copy_histfiles]
      rw [if_pos (by rw [hc]; unfold totalLatest at hpos; omega)]
      exact ⟨_, rfl⟩
    · refine ⟨?_, fun h => absurd h hpos⟩
      rintro ⟨c, hcok⟩
      simp only [copy_histfiles] at hcok
      rw [if_neg (by rw [hc]; unfold totalLatest at hpos; omega)] at hcok
      cases hcok
  · intro env suffix
    have hc := renameFold_count env suffix (iterModelFileSubstrs env.components)
      ("Renaming hist files by adding suffix " ++ "'" ++ suffix ++ "'" ++ "\n", 0)
    by_cases hpos : 0 < totalAll env
    · refine ⟨fun _ => hpos, fun _ => ?_⟩
      simp only [rename_all_hist_files]
      rw [if_pos (by rw [hc]; unfold totalAll at hpos; omega)]
      exact ⟨_, rfl⟩
    · refine ⟨?_, fun h => absurd h hpos⟩
      rintro ⟨c, hcok⟩
      simp only [rename_all_hist_files] at hcok
      rw [if_neg (by rw [hc]; unfold totalAll at hpos; omega)] at hcok
      cases hcok

/-- C7 witness: one hist file makes `copy_histfiles` succeed; an empty
run directory makes `rename_all_hist_files` fail. -/
theorem c7_witness :
    (∃ c, copy_histfiles saveEnvOne "s" = .ok c)
    ∧ ¬∃ c, rename_all_hist_files saveEnvEmpty "s" = .ok c :=
  ⟨(c7_zero_processed_fatal.1 saveEnvOne "s").mpr (by decide),
    fun h => by
      have := (c7_zero_processed_fatal.2 saveEnvEmpty "s").mp h
      exact absurd this (by decide)⟩

/-- C8: whenever some directory in the checked list (the override, or the
baseline root and computed baseline directory) is missing,
`compare_baseline` immediately returns `false` with the distinguished
`TEST_NO_BASELINES_COMMENT` message naming the first missing directory,
and the result does not depend on the comparator oracle at all. -/
theorem c8_missing_baseline_dir (cprncF g : CprncOracle) (cenv : CompareEnv)
    (benv : BaselineEnv) (bdir : Option String) (d : String)
    (hfind : (dirsToCheck benv bdir).find? (fun x => !benv.isdir x) = some d) :
    compare_baseline cprncF cenv benv bdir =
      .ok (false, "ERROR " ++ TEST_NO_BASELINES_COMMENT ++ " baseline directory " ++
        "'" ++ d ++ "'" ++ " does not exist")
    ∧ compare_baseline cprncF cenv benv bdir = compare_baseline g cenv benv bdir := by
  have h1 : ∀ gg : CprncOracle, compare_baseline gg cenv benv bdir =
      .ok (false, "ERROR " ++ TEST_NO_BASELINES_COMMENT ++ " baseline directory " ++
        "'" ++ d ++ "'" ++ " does not exist") := by
    intro gg
    unfold compare_baseline
    rw [hfind]
  exact ⟨h1 cprncF, by rw [h1 cprncF, h1 g]⟩

/-- C8 witness: with no directories present and no override, the baseline
root itself is reported missing. -/
theorem c8_witness :
    compare_baseline cprncAllOk envSMS benvNoDirs none =
      .ok (false, "ERROR " ++ TEST_NO_BASELINES_COMMENT ++ " baseline directory " ++
        "'" ++ "broot" ++ "'" ++ " does not exist")
    ∧ compare_baseline cprncAllOk envSMS benvNoDirs none =
        compare_baseline cprncAllDiff envSMS benvNoDirs none :=
  c8_missing_baseline_dir cprncAllOk cprncAllDiff envSMS benvNoDirs none "broot" (by decide)

/-- C4: a batch in which zero pairs were compared across all components,
for a test kind other than the exempt `PFS`, returns `success = false` and
commentary ending with the missing-baselines line and the `FAIL` token;
the commentary contains the `Missing baselines?` indication. -/
theorem c4_zero_compared (cprncF : CprncOracle) (env : CompareEnv)
    (dir1 dir2 s1 s2 : String) (ign : Bool) (st : OrchState)
    (hself : (dir1 == dir2 && s1 == s2) = false)
    (hrun : runModels cprncF env dir1 dir2 s1 s2 ign = .ok st)
    (h0 : st.numCompared = 0) (hpfs : env.testcase ≠ "PFS") :
    compareHists cprncF env dir1 dir2 s1 s2 ign =
      .ok (false,
        st.comments ++ "Did not compare any hist files! Missing baselines?\n" ++ "FAIL")
    ∧ containsSub
        (st.comments ++ "Did not compare any hist files! Missing baselines?\n" ++ "FAIL")
        "Missing baselines?" = true := by
  have hcond : (st.numCompared == 0 && env.testcase != "PFS") = true := by
    rw [h0]
    simp [hpfs]
  constructor
  · unfold compareHists
    rw [if_neg (by simp [hself])]
    simp only [hrun, hcond, if_true]
  · rw [strAppend_assoc]
    apply containsSub_append_right
    decide

/-- C4 witness: an empty `SMS` batch compares nothing and fails with the
missing-baselines line. -/
theorem c4_witness :
    compareHists cprncAllOk envSMS "d1" "d2" "" "" false =
      .ok (false, (initState "X" "d1" "d2" "" "").comments ++
        "Did not compare any hist files! Missing baselines?\n" ++ "FAIL")
    ∧ containsSub ((initState "X" "d1" "d2" "" "").comments ++
        "Did not compare any hist files! Missing baselines?\n" ++ "FAIL")
        "Missing baselines?" = true :=
  c4_zero_compared cprncAllOk envSMS "d1" "d2" "" "" false
    (initState "X" "d1" "d2" "" "") (by decide) (by decide) (by decide) (by decide)

/-- Counterexample to C1 as stated: (a) when the baseline directory is
absent, `compare_baseline` returns the success flag `false` with a
single-line commentary that is the `no baselines` error message — its
final line is that message, not the literal `FAIL`; (b) for the e3sm model
with a non-empty bless log, the bless annotation is appended after the
`PASS`/`FAIL` token, so a successful comparison ends with the annotation
(here an empty final line), not with `PASS`. -/
theorem c1_counterexample :
    (compare_baseline cprncAllOk envSMS benvNoDirs none =
      .ok (false,
        "ERROR BFAIL baseline directory " ++ "'" ++ "broot" ++ "'" ++ " does not exist")
    ∧ lastLine
        ("ERROR BFAIL baseline directory " ++ "'" ++ "broot" ++ "'" ++ " does not exist")
      ≠ "FAIL")
    ∧ (compare_baseline cprncAllOk envPFS benvBless none).map
        (fun r => (r.1, lastLine r.2)) = .ok (true, "")
    ∧ ("" : String) ≠ "PASS" := by
  exact ⟨⟨by decide, by decide⟩, by decide, by decide⟩

/-- C1 (amended): for `compare_test` (and hence `_compare_hists`) the
final commentary line is always exactly `PASS` when the success flag is
true and exactly `FAIL` otherwise; the same holds for `compare_baseline`
provided every checked baseline directory exists and no e3sm bless-log
annotation applies.  (When a directory is missing the commentary is the
single `does not exist` error line; the bless-log annotation appends text
after the `PASS`/`FAIL` token.) -/
theorem c1_final_token :
    (∀ (cprncF : CprncOracle) (env : CompareEnv) (s1 s2 : String) (ign b : Bool)
        (c : String),
      compare_test cprncF env s1 s2 ign = .ok (b, c) →
      lastLine c = (if b then "PASS" else "FAIL"))
    ∧ (∀ (cprncF : CprncOracle) (cenv : CompareEnv) (benv : BaselineEnv)
        (bdir : Option String) (b : Bool) (c : String),
      (∀ d ∈ dirsToCheck benv bdir, benv.isdir d = true) →
      (benv.model = "e3sm" → benv.blessLog = none ∨ benv.blessLog = some []) →
      compare_baseline cprncF cenv benv bdir = .ok (b, c) →
      lastLine c = (if b then "PASS" else "FAIL")) := by
  constructor
  · intro cprncF env s1 s2 ign b c hok
    exact compareHists_token cprncF env env.rundir env.rundir s1 s2 ign b c hok
  · intro cprncF cenv benv bdir b c hdirs hbless hok
    unfold compare_baseline at hok
    have hfind : (dirsToCheck benv bdir).find? (fun d => !benv.isdir d) = none := by
      rw [List.find?_eq_none]
      intro x hx
      rw [hdirs x hx]
      simp
    simp only [hfind] at hok
    cases hcmp : compareHists cprncF cenv cenv.rundir (basecmpDirOf benv bdir)
        "" "" false with
    | error e => simp [hcmp] at hok
    | ok p =>
        obtain ⟨succ, cmts⟩ := p
        simp only [hcmp] at hok
        rw [blessAdjust_id benv cmts hbless] at hok
        cases hok
        exact compareHists_token cprncF cenv cenv.rundir (basecmpDirOf benv bdir)
          "" "" false b c hcmp

/-- C1 witness: an empty `PFS` regression comparison passes and its final
commentary line is `PASS`. -/
theorem c1_witness :
    lastLine ("Comparing hists for case " ++ "'" ++ "X" ++ "'" ++
        " dir1=" ++ "'" ++ "r" ++ "'" ++ ", suffix1=" ++ "'" ++ "a" ++ "'" ++
        ",  dir2=" ++ "'" ++ "r" ++ "'" ++ " suffix2=" ++ "'" ++ "b" ++ "'" ++ "\n"
        ++ "PASS")
      = (if true then "PASS" else "FAIL") :=
  c1_final_token.1 cprncAllOk envPFS "a" "b" false true _ (by decide)

/-- Counterexample to C10 as stated: in the degenerate batch with no
components at all, every matched pair is (vacuously) non-netcdf and no
file is missing, yet the batch fails with `FAIL` (zero compared pairs in a
non-exempt test kind). -/
theorem c10_counterexample :
    (compareHists cprncAllOk envSMS "d1" "d2" "" "" false).map
      (fun r => (r.1, lastLine r.2)) = .ok (false, "FAIL") := by
  decide

/-- C10 (amended): a matched pair whose first name lacks `.nc` is skipped
without invoking the comparator yet still counts toward the compared-pair
total; hence a batch whose every matched pair is non-netcdf, with no
missing files and at least one matched pair, returns `success = true` with
final line `PASS`, and its result is independent of the comparator
oracle (zero comparator invocations). -/
theorem c10_nonnetcdf_counts (cprncF g : CprncOracle) (env : CompareEnv)
    (dir1 dir2 s1 s2 : String) (ign : Bool) (ps : String → List (String × String))
    (hself : (dir1 == dir2 && s1 == s2) = false)
    (hm : ∀ m ∈ env.models,
      histsMatch m (env.histsOf1 m) (env.histsOf2 m) s1 s2 = .ok ([], [], ps m))
    (hnc : ∀ m ∈ env.models, ∀ pr ∈ ps m, containsSub pr.1 ".nc" = false)
    (hex : ∃ m ∈ env.models, ps m ≠ []) :
    ∃ c, compareHists cprncF env dir1 dir2 s1 s2 ign = .ok (true, c)
      ∧ lastLine c = "PASS"
      ∧ compareHists g env dir1 dir2 s1 s2 ign =
          compareHists cprncF env dir1 dir2 s1 s2 ign := by
  obtain ⟨st', hfold, ha, hn, hnl⟩ :=
    runFold_clean env dir1 dir2 s1 s2 ign ps env.models
      (initState env.casename dir1 dir2 s1 s2) hm hnc (endsNl_append _ _ (by decide))
  have hrm : ∀ gg : CprncOracle, runModels gg env dir1 dir2 s1 s2 ign = .ok st' := by
    intro gg
    unfold runModels
    exact hfold gg
  have hpos : st'.numCompared ≠ 0 := by
    rw [hn]
    rcases hex with ⟨m, hmem, hne⟩
    have h1 : 0 < (ps m).length := List.length_pos.mpr hne
    have h2 : (ps m).length ∈ env.models.map (fun m => (ps m).length) :=
      List.mem_map_of_mem _ hmem
    have h3 := sum_pos_of_mem h2 h1
    simp only [initState]
    omega
  have hcond : (st'.numCompared == 0 && env.testcase != "PFS") = false := by
    simp [hpos]
  have hasucc : st'.allSuccess = true := ha
  have hall : ∀ gg : CprncOracle,
      compareHists gg env dir1 dir2 s1 s2 ign = .ok (true, st'.comments ++ "PASS") := by
    intro gg
    unfold compareHists
    rw [if_neg (by simp [hself])]
    simp only [hrm gg, hcond, Bool.false_eq_true, if_false, hasucc, if_true]
  refine ⟨st'.comments ++ "PASS", hall cprncF, ?_, by rw [hall g, hall cprncF]⟩
  rw [lastLine_append _ _ hnl (by decide)]

/-- C10 witness: a one-component batch whose single matched pair is a
`.txt` file passes with `PASS` under any comparator oracle. -/
theorem c10_witness :
    ∃ c, compareHists cprncAllOk envTxt "d1" "d2" "" "" false = .ok (true, c)
      ∧ lastLine c = "PASS"
      ∧ compareHists cprncAllDiff envTxt "d1" "d2" "" "" false =
          compareHists cprncAllOk envTxt "d1" "d2" "" "" false :=
  c10_nonnetcdf_counts cprncAllOk cprncAllDiff envTxt "d1" "d2" "" "" false
    (fun _ => [("cam.h0.txt", "cam.h0.txt")]) (by decide) (by decide) (by decide)
    ⟨"cam", by decide, by decide⟩

end HistUtils
